import Mathlib

/-!
Verification of the publish-go-lambda deployment pipeline (src/main.go).

The development shallowly embeds the pipeline's pure logic:

* `shortName` models line 48, `name[strings.LastIndexByte(name, ':')+1:]`.
  Go slices bytes, but since ':' is an ASCII byte it can only occur as the
  character ':' in valid UTF-8, so the byte-level slice coincides with the
  character-level one modelled here.
* `checkMainPackage` models the source safety analyzer (lines 168-212),
  with the parsed directory abstracted as a `GoDir` value (the output of
  `parser.ParseDir`): per-file leading documentation text (`f.Doc.Text()`)
  and the literal import path tokens (`s.Path.Value`, quotes included).
  The regex `\b<QuoteMeta(name)>\b` is modelled by `mentionsWord`, using
  Go's ASCII word-character class `[0-9A-Za-z_]`; the model is faithful for
  the non-empty names the function can reach (an empty name panics first).
* `resolve` models the runtime/architecture resolution of `run`
  (lines 64-101); `buildAndZip` models the packaging half of the function
  of the same name (lines 133-165), at the level of the archive/zip API:
  an entry records its header and the uncompressed bytes handed to
  `io.Copy` (DEFLATE round-trips losslessly, a contract of compress/flate).
* `runModel` models the driver `run` (lines 44-115): external effects
  (the configuration fetch, the `go build` subprocess, the code upload)
  are oracles in a `World`, and the model returns the outcome together
  with the ordered trace of pipeline steps that were attempted.
* `fetchCtx` and `updateCtx` model the `context.Context` values passed to
  the two remote calls (lines 37, 57 and 106).
-/

/-! ## Definitions -/

/-- Model of Go `strings.LastIndexByte`: the index of the last occurrence
of `c` in `s`, or `-1` when `c` does not occur. -/
def lastIndexByte (s : List Char) (c : Char) : Int :=
  match s with
  | [] => -1
  | x :: xs =>
    let r := lastIndexByte xs c
    if r = -1 then (if x = c then 0 else -1) else r + 1

/-- Model of `name[strings.LastIndexByte(name, ':')+1:]` on character lists. -/
def shortNameL (s : List Char) : List Char :=
  s.drop (lastIndexByte s ':' + 1).toNat

/-- Short name derived from the function identifier (src/main.go line 48). -/
def shortName (s : String) : String :=
  String.mk (shortNameL s.data)

/-- Go regexp ASCII word character class `\w`, i.e. `[0-9A-Za-z_]`. -/
def isWordChar (c : Char) : Bool :=
  c.isAlphanum || c == '_'

/-- Whether an optional character (none at the edge of the text) counts as
a word character for `\b` boundary purposes. -/
def optIsWord : Option Char → Bool
  | none => false
  | some c => isWordChar c

/-- Go regexp `\b`: a word boundary lies between two positions exactly when
one side is a word character and the other is not (text edges count as
non-word). -/
def wordBoundary (a b : Option Char) : Bool :=
  optIsWord a != optIsWord b

/-- The literal pattern `pat` occurs in `text` at position `i` with word
boundaries on both sides, i.e. the regex `\b QuoteMeta(pat) \b` matches
there. Faithful to Go for non-empty `pat`. -/
def matchesWordAt (text pat : List Char) (i : Nat) : Bool :=
  pat.isPrefixOf (text.drop i) &&
  wordBoundary (if i = 0 then none else text.get? (i - 1)) pat.head? &&
  wordBoundary pat.getLast? (text.get? (i + pat.length))

/-- Model of `regexp.MustCompile("\\b" + regexp.QuoteMeta(pat) + "\\b").MatchString(text)`
(src/main.go lines 188, 194). -/
def mentionsWord (text pat : List Char) : Bool :=
  (List.range (text.length + 1)).any (matchesWordAt text pat)

/-- A parsed Go source file, as the analyzer sees it: the text of its
leading documentation comment (`f.Doc.Text()`, `none` when `f.Doc == nil`)
and the literal import path tokens (`s.Path.Value`, quotes included). -/
structure GoFile where
  doc : Option String
  importPaths : List String
deriving DecidableEq

/-- A parsed Go package (`*ast.Package`): its files. -/
structure GoPackage where
  files : List GoFile
deriving DecidableEq

/-- The result of `parser.ParseDir` on a directory: either a parse error,
or the packages found, keyed by package name. -/
structure GoDir where
  parseError : Option String
  packages : List (String × GoPackage)
deriving DecidableEq

/-- The import path token the analyzer requires (src/main.go line 189),
quotes included, exactly as `s.Path.Value` renders it. -/
def awsDependency : String := "\"github.com/aws/aws-lambda-go/lambda\""

/-- Whether a file's leading documentation mentions `name` as a whole word
(src/main.go lines 193-194). -/
def docMentions (name : String) (f : GoFile) : Bool :=
  match f.doc with
  | none => false
  | some d => mentionsWord d.data name.data

/-- Whether a file imports the AWS Lambda handler library
(src/main.go lines 196-203). -/
def hasAwsImport (f : GoFile) : Bool :=
  f.importPaths.any (· == awsDependency)

/-- The analyzer's error cases (src/main.go lines 177-210). -/
inductive CheckError
  | parseFailure (msg : String)
  | noMainPackage
  | docsMissingName (name : String)
  | missingImport
deriving DecidableEq

/-- The rendered error message for each analyzer error, as produced by the
`fmt.Errorf` calls in src/main.go. -/
def CheckError.message : CheckError → String
  | .parseFailure msg => msg
  | .noMainPackage => "cannot find main package"
  | .docsMissingName name =>
      "package docs does not mention name \"" ++ name ++ "\" (run with -f to skip this check)"
  | .missingImport =>
      "package does not import " ++ awsDependency ++ " dependency (run with -f to skip this check)"

/-- Outcome of a Go function that may panic, fail with an error value, or
succeed. A `panic` aborts the program instead of returning to the caller. -/
inductive Res (ε α : Type)
  | panic (msg : String)
  | error (e : ε)
  | ok (a : α)
deriving DecidableEq

/-- Model of `checkMainPackage(dir, lambdaName, strict)` (src/main.go
lines 168-212). The parse mode (`ParseComments` vs `ImportsOnly`) only
controls whether doc comments are attached; docs are consulted only when
`strict` is set, so the model takes the fully parsed `GoDir` either way. -/
def checkMainPackage (dir : GoDir) (lambdaName : String) (strict : Bool) :
    Res CheckError Unit :=
  if lambdaName = "" then
    .panic "checkMainPackage called with an empty lambdaName"
  else
    match dir.parseError with
    | some msg => .error (.parseFailure msg)
    | none =>
      match dir.packages.lookup "main" with
      | none => .error .noMainPackage
      | some pkg =>
        if !strict then
          .ok ()
        else
          let mentionsLambdaName := pkg.files.any (docMentions lambdaName)
          let hasLambdaImport := pkg.files.any hasAwsImport
          if !mentionsLambdaName then
            .error (.docsMissingName lambdaName)
          else if !hasLambdaImport then
            .error .missingImport
          else
            .ok ()

/-- Lambda runtime (`types.Runtime`, a string-backed enum). -/
inductive Runtime
  | go1x
  | providedal2
  | otherRuntime (s : String)
deriving DecidableEq

/-- Lambda architecture (`types.Architecture`, a string-backed enum). -/
inductive Arch
  | x8664
  | arm64
  | otherArch (s : String)
deriving DecidableEq

/-- Lambda package type (`types.PackageType`, a string-backed enum). -/
inductive PackageType
  | zip
  | image
  | otherPackageType (s : String)
deriving DecidableEq

/-- The fields of `GetFunctionConfigurationOutput` the pipeline reads. -/
structure FunctionConfiguration where
  packageType : PackageType
  runtime : Runtime
  architectures : List Arch
  handler : Option String
  revisionId : Option String
deriving DecidableEq

/-- GOARCH value for x86-64 (src/main.go line 223). -/
def goAmd64 : String := "amd64"

/-- GOARCH value for arm64 (src/main.go line 224). -/
def goArm64 : String := "arm64"

/-- The resolved build target: the name the binary must carry inside the
archive, and the GOARCH the compiler is invoked with. -/
structure BuildTarget where
  binaryName : String
  lambdaArch : String
deriving DecidableEq

/-- The error cases of `run` (src/main.go lines 44-115), one constructor
per distinct `errors.New` / `fmt.Errorf` site, carrying the data the
message interpolates. -/
inductive RunError
  | nameMustBeSet
  | checkFailed (e : CheckError)
  | getConfigurationFailed (msg : String)
  | unsupportedPackageType (pt : PackageType)
  | expectedSingleArch (archs : List Arch)
  | emptyHandlerName
  | go1xUnsupportedArch (a : Arch)
  | providedUnsupportedArch (a : Arch)
  | unsupportedRuntime (r : Runtime)
  | buildFailed (msg : String)
  | updateFailed (msg : String)
deriving DecidableEq

/-- The runtime `switch` of `run` (src/main.go lines 78-101), for a
descriptor whose single architecture is `arch`. For `go1.x` the empty- or
absent-handler check (lines 80-82) comes before the architecture check
(lines 83-85). -/
def resolveRuntime (c : FunctionConfiguration) (arch : Arch) :
    Except RunError BuildTarget :=
  match c.runtime with
  | .go1x =>
    match c.handler with
    | none => .error .emptyHandlerName
    | some h =>
      if h = "" then .error .emptyHandlerName
      else if arch ≠ Arch.x8664 then .error (.go1xUnsupportedArch arch)
      else .ok ⟨h, goAmd64⟩
  | .providedal2 =>
    match arch with
    | .x8664 => .ok ⟨"bootstrap", goAmd64⟩
    | .arm64 => .ok ⟨"bootstrap", goArm64⟩
    | a => .error (.providedUnsupportedArch a)
  | r => .error (.unsupportedRuntime r)

/-- The resolution portion of `run` (src/main.go lines 64-101): the
package-type precondition (lines 64-66), the single-architecture
precondition (lines 75-77, `len(cfgOutput.Architectures) != 1`, written
here as a pattern match on the list), then the runtime switch. -/
def resolve (c : FunctionConfiguration) : Except RunError BuildTarget :=
  if c.packageType ≠ PackageType.zip then
    .error (.unsupportedPackageType c.packageType)
  else
    match c.architectures with
    | [arch] => resolveRuntime c arch
    | archs => .error (.expectedSingleArch archs)

/-- The decision table of spec §4.2 with the precedence the code actually
implements: for `go1.x` the handler-name check comes first, so an absent
or empty handler fails with the empty-handler error even on a non-amd64
architecture; with a non-empty handler, amd64 succeeds and any other
architecture fails with the unsupported-architecture error. -/
def resolveTable (rt : Runtime) (arch : Arch) (handler : Option String) :
    Except RunError BuildTarget :=
  match rt with
  | .go1x =>
    match handler with
    | none => .error .emptyHandlerName
    | some h =>
      if h = "" then .error .emptyHandlerName
      else if arch = Arch.x8664 then .ok ⟨h, goAmd64⟩
      else .error (.go1xUnsupportedArch arch)
  | .providedal2 =>
    match arch with
    | .x8664 => .ok ⟨"bootstrap", goAmd64⟩
    | .arm64 => .ok ⟨"bootstrap", goArm64⟩
    | a => .error (.providedUnsupportedArch a)
  | r => .error (.unsupportedRuntime r)

/-- File metadata as returned by `f.Stat()` for the compiled binary. -/
structure FileInfo where
  name : String
  size : Nat
  modTime : Nat
  mode : Nat
deriving DecidableEq

/-- A zip entry header, at the level of `zip.FileHeader`: logical entry
name, permission bits, modification time and compression method
(0 = Store, 8 = Deflate). -/
structure ZipHeader where
  name : String
  mode : Nat
  modTime : Nat
  method : Nat
deriving DecidableEq

/-- Model of `zip.FileInfoHeader(fi)`: a header carrying the file's
on-disk base name, mode and modification time (method defaults to Store). -/
def zipFileInfoHeader (fi : FileInfo) : ZipHeader :=
  { name := fi.name, mode := fi.mode, modTime := fi.modTime, method := 0 }

/-- Model of `header.SetMode(m)`. -/
def ZipHeader.setMode (h : ZipHeader) (m : Nat) : ZipHeader :=
  { h with mode := m }

/-- A written zip entry: its header and the uncompressed bytes handed to
`io.Copy`. DEFLATE decompression recovers these bytes exactly, so the
entry's logical content is what the model stores. -/
structure ZipEntry where
  header : ZipHeader
  data : List UInt8
deriving DecidableEq

/-- The in-memory archive `buildAndZip` returns: its ordered entries. -/
structure Archive where
  entries : List ZipEntry
deriving DecidableEq

/-- The packaging half of `buildAndZip` (src/main.go lines 133-165), once
the external `go build` step has produced a binary with metadata `fi` and
content `contents`: build the header from the file info, switch the method
to Deflate (best compression), override the logical name with
`handlerName`, force mode 0775, and write the single entry. -/
def buildAndZip (fi : FileInfo) (contents : List UInt8) (handlerName : String) :
    Archive :=
  let header := zipFileInfoHeader fi
  let header := { header with method := 8 }
  let header := { header with name := handlerName }
  let header := header.setMode 0o775
  { entries := [{ header := header, data := contents }] }

/-- The product of the external `go build` invocation: the binary's stat
metadata and its bytes. -/
structure CompiledBinary where
  info : FileInfo
  data : List UInt8

/-- Oracles for the driver's external effects: the parsed current
directory, the configuration fetch (AWS config load plus
`GetFunctionConfiguration`, lines 52-63), the `go build` subprocess as a
function of the GOARCH it is invoked with (lines 124-132), and the
`UpdateFunctionCode` call as a function of the revision id and archive it
is given (lines 108-113). -/
structure World where
  dir : GoDir
  fetch : Except String FunctionConfiguration
  compile : String → Except String CompiledBinary
  upload : Option String → Archive → Except String Unit

/-- The pipeline steps of `run`, in the order the driver attempts them. -/
inductive Event
  | normalize
  | safetyCheck
  | fetchConfig
  | resolveStep
  | buildStep
  | uploadStep
deriving DecidableEq

/-- The full step order of a run that reaches the upload. -/
def pipelineOrder : List Event :=
  [.normalize, .safetyCheck, .fetchConfig, .resolveStep, .buildStep, .uploadStep]

/-- The upload step of `run` (src/main.go lines 106-114): submit the
packaged bytes with the descriptor's revision id. -/
def runStep5 (w : World) (c : FunctionConfiguration) (bt : BuildTarget)
    (bin : CompiledBinary) : Res RunError Unit × List Event :=
  match w.upload c.revisionId (buildAndZip bin.info bin.data bt.binaryName) with
  | .error msg => (.error (.updateFailed msg), pipelineOrder)
  | .ok _ => (.ok (), pipelineOrder)

/-- The build-and-zip step of `run` (src/main.go lines 102-105): invoke
the compiler with the resolved GOARCH, then package and continue. -/
def runStep4 (w : World) (c : FunctionConfiguration) (bt : BuildTarget) :
    Res RunError Unit × List Event :=
  match w.compile bt.lambdaArch with
  | .error msg =>
      (.error (.buildFailed msg),
       [.normalize, .safetyCheck, .fetchConfig, .resolveStep, .buildStep])
  | .ok bin => runStep5 w c bt bin

/-- The resolution step of `run` (src/main.go lines 64-101). -/
def runStep3 (w : World) (c : FunctionConfiguration) :
    Res RunError Unit × List Event :=
  match resolve c with
  | .error e =>
      (.error e, [.normalize, .safetyCheck, .fetchConfig, .resolveStep])
  | .ok bt => runStep4 w c bt

/-- The configuration-fetch step of `run` (src/main.go lines 52-63). -/
def runStep2 (w : World) : Res RunError Unit × List Event :=
  match w.fetch with
  | .error msg =>
      (.error (.getConfigurationFailed msg), [.normalize, .safetyCheck, .fetchConfig])
  | .ok c => runStep3 w c

/-- Model of the driver `run(ctx, name, relaxedChecks)` (src/main.go
lines 44-115): the outcome (success, error value, or panic) together with
the ordered trace of steps that were attempted, the failing step included.
The sequence is exactly the code's: empty-name guard, short-name
derivation, safety check, configuration fetch, resolution, build-and-zip,
upload. -/
def runModel (w : World) (name : String) (relaxedChecks : Bool) :
    Res RunError Unit × List Event :=
  if name = "" then
    (.error .nameMustBeSet, [])
  else
    match checkMainPackage w.dir (shortName name) (!relaxedChecks) with
    | .panic msg => (.panic msg, [.normalize, .safetyCheck])
    | .error e => (.error (.checkFailed e), [.normalize, .safetyCheck])
    | .ok _ => runStep2 w

/-- Index of the first occurrence of an event in a trace (length of the
trace when absent). -/
def eventIdx (e : Event) : List Event → Nat
  | [] => 0
  | x :: xs => if x = e then 0 else eventIdx e xs + 1

/-- A `context.Context` value as the driver builds them: the
interrupt-cancellable base context from `signal.NotifyContext`
(src/main.go line 37), possibly wrapped by `context.WithTimeout` with a
duration in seconds. -/
inductive Ctx
  | signalCtx
  | withTimeout (parent : Ctx) (seconds : Nat)
deriving DecidableEq

/-- The innermost explicit timeout a context carries, if any. -/
def Ctx.explicitTimeout : Ctx → Option Nat
  | .signalCtx => none
  | .withTimeout _ seconds => some seconds

/-- The context passed to `svc.GetFunctionConfiguration` (src/main.go
line 57): the signal context, unmodified. -/
def fetchCtx : Ctx := .signalCtx

/-- The context passed to `svc.UpdateFunctionCode` (src/main.go lines
106-108): the signal context wrapped with a 5-minute timeout. -/
def updateCtx : Ctx := .withTimeout .signalCtx (5 * 60)

/-! ### Concrete sample data used by witnesses and counterexamples -/

/-- A main-package file whose doc mentions `fn` and which imports the
Lambda library. -/
def sampleFile : GoFile :=
  { doc := some "Command fn does things.\n", importPaths := [awsDependency] }

/-- A parseable directory with a conforming main package. -/
def sampleDir : GoDir :=
  { parseError := none, packages := [("main", { files := [sampleFile] })] }

/-- A parseable directory whose main package never mentions `fn` in its
docs. -/
def sampleDirNoDoc : GoDir :=
  { parseError := none,
    packages := [("main", { files := [{ doc := some "Command does things.\n",
                                        importPaths := [awsDependency] }] })] }

/-- A custom-runtime arm64 zip function configuration. -/
def sampleConfig : FunctionConfiguration :=
  { packageType := .zip, runtime := .providedal2, architectures := [.arm64],
    handler := none, revisionId := some "rev-1" }

/-- An image-packaged function configuration. -/
def imageConfig : FunctionConfiguration :=
  { packageType := .image, runtime := .providedal2, architectures := [.arm64],
    handler := none, revisionId := some "rev-1" }

/-- A `go1.x` configuration on arm64 with no handler set: the input where
the resolver's check order is observable. -/
def cexConfig : FunctionConfiguration :=
  { packageType := .zip, runtime := .go1x, architectures := [.arm64],
    handler := none, revisionId := none }

/-- A compiled-binary oracle result. -/
def sampleBinary : CompiledBinary :=
  { info := { name := "main", size := 3, modTime := 1700000000, mode := 0o755 },
    data := [127, 69, 76] }

/-- A world in which every external effect succeeds. -/
def sampleWorld : World :=
  { dir := sampleDir,
    fetch := .ok sampleConfig,
    compile := fun _ => .ok sampleBinary,
    upload := fun _ _ => .ok () }

/-- A world whose fetched configuration is image-packaged. -/
def imageWorld : World :=
  { dir := sampleDir,
    fetch := .ok imageConfig,
    compile := fun _ => .ok sampleBinary,
    upload := fun _ _ => .ok () }

/-! ## Theorems -/

theorem lastIndexByte_eq_neg_one (s : List Char) (c : Char) (h : c ∉ s) :
    lastIndexByte s c = -1 := by
  induction s with
  | nil => rfl
  | cons x xs ih =>
    rw [List.mem_cons] at h
    push_neg at h
    have hx : ¬ (x = c) := fun hxc => h.1 hxc.symm
    simp [lastIndexByte, ih h.2, hx]

theorem lastIndexByte_nonneg (s : List Char) (c : Char) (h : c ∈ s) :
    0 ≤ lastIndexByte s c := by
  induction s with
  | nil => cases h
  | cons x xs ih =>
    by_cases hm : c ∈ xs
    · have h0 := ih hm
      have hne : lastIndexByte xs c ≠ -1 := by omega
      simp only [lastIndexByte]
      rw [if_neg hne]
      omega
    · have hx : c = x := (List.mem_cons.mp h).resolve_right hm
      subst hx
      have hr := lastIndexByte_eq_neg_one xs c hm
      simp [lastIndexByte, hr]

theorem lastIndexByte_cons_of_mem (x : Char) (xs : List Char) (c : Char) (h : c ∈ xs) :
    lastIndexByte (x :: xs) c = lastIndexByte xs c + 1 := by
  have h0 := lastIndexByte_nonneg xs c h
  have hne : lastIndexByte xs c ≠ -1 := by omega
  simp only [lastIndexByte]
  rw [if_neg hne]

theorem shortNameL_cons_of_mem (x : Char) (xs : List Char) (h : ':' ∈ xs) :
    shortNameL (x :: xs) = shortNameL xs := by
  have h0 := lastIndexByte_nonneg xs ':' h
  simp only [shortNameL, lastIndexByte_cons_of_mem x xs ':' h]
  have ht : (lastIndexByte xs ':' + 1 + 1).toNat = (lastIndexByte xs ':' + 1).toNat + 1 := by
    omega
  rw [ht, List.drop_succ_cons]

/-- Character-list version of the derivation invariant: when a colon is
present, the derived short name is exactly the tail after the last colon. -/
theorem shortNameL_colon (s : List Char) (h : ':' ∈ s) :
    ∃ pre, s = pre ++ ':' :: shortNameL s ∧ ':' ∉ shortNameL s := by
  induction s with
  | nil => cases h
  | cons x xs ih =>
    by_cases hm : ':' ∈ xs
    · obtain ⟨pre, hpre, hnc⟩ := ih hm
      have heq := shortNameL_cons_of_mem x xs hm
      refine ⟨x :: pre, ?_, ?_⟩
      · rw [heq, List.cons_append, ← hpre]
      · rw [heq]
        exact hnc
    · have hx : x = ':' := by
        rcases List.mem_cons.mp h with h1 | h1
        · exact h1.symm
        · exact absurd h1 hm
      have hr := lastIndexByte_eq_neg_one xs ':' hm
      have heq : shortNameL (x :: xs) = xs := by
        simp [shortNameL, lastIndexByte, hr, hx]
      refine ⟨[], ?_, ?_⟩
      · rw [heq, hx]
        rfl
      · rw [heq]
        exact hm

theorem shortNameL_no_colon (s : List Char) (h : ':' ∉ s) :
    shortNameL s = s := by
  have hr := lastIndexByte_eq_neg_one s ':' h
  simp [shortNameL, hr]

theorem shortNameL_last_colon (s : List Char) (h : s.getLast? = some ':') :
    shortNameL s = [] := by
  induction s with
  | nil => simp at h
  | cons x xs ih =>
    cases xs with
    | nil =>
      have hx : x = ':' := by simpa using h
      subst hx
      decide
    | cons y ys =>
      have h' : (y :: ys).getLast? = some ':' := by
        rwa [List.getLast?_cons_cons] at h
      have hxs := ih h'
      by_cases hm : ':' ∈ y :: ys
      · rw [shortNameL_cons_of_mem x (y :: ys) hm, hxs]
      · have := shortNameL_no_colon (y :: ys) hm
        rw [this] at hxs
        exact absurd hxs (by simp)

example : shortName "a:b:fn" = "fn" := by decide
example : shortName "plain" = "plain" := by decide
example : shortName "x:" = "" := by decide

/-- C2: for every non-empty identifier containing at least one colon, the
derived short name (the value `run` passes to the safety check) is exactly
the substring after the last colon — the input splits as a prefix, a
colon, and the short name, and the short name itself contains no colon,
so that colon is the last one; for every identifier containing no colon,
the derived short name is the whole input unchanged. -/
theorem shortName_derivation (s : String) :
    (s ≠ "" → ':' ∈ s.data →
      ∃ pre, s.data = pre ++ ':' :: (shortName s).data ∧ ':' ∉ (shortName s).data) ∧
    (':' ∉ s.data → shortName s = s) := by
  constructor
  · intro _ hc
    exact shortNameL_colon s.data hc
  · intro hc
    obtain ⟨l⟩ := s
    show String.mk (shortNameL l) = String.mk l
    rw [shortNameL_no_colon l hc]

/-- C2 witness: the split at a concrete qualified identifier, and identity
at a concrete bare name. -/
theorem shortName_derivation_witness :
    (∃ pre, "a:b:fn".data = pre ++ ':' :: (shortName "a:b:fn").data ∧
      ':' ∉ (shortName "a:b:fn").data) ∧ shortName "plain" = "plain" :=
  ⟨(shortName_derivation "a:b:fn").1 (by decide) (by decide),
   (shortName_derivation "plain").2 (by decide)⟩

/-- C10: when the identifier's last character is a colon, the derived
short name is empty, and the safety check then panics — aborting the
program instead of returning an error value to the caller — whatever the
world's oracles and the relaxed-checks flag. -/
theorem trailing_colon_panics (name : String) (hne : name ≠ "")
    (hlast : name.data.getLast? = some ':') :
    shortName name = "" ∧
    ∀ (w : World) (relaxedChecks : Bool),
      (runModel w name relaxedChecks).1 =
        Res.panic "checkMainPackage called with an empty lambdaName" := by
  have hempty : shortName name = "" := by
    show String.mk (shortNameL name.data) = ""
    rw [shortNameL_last_colon name.data hlast]
  refine ⟨hempty, ?_⟩
  intro w relaxedChecks
  simp only [runModel]
  rw [if_neg hne, hempty]
  rfl

/-- C10 witness: the panic at the concrete identifier `myFn:` in the
all-succeeding sample world. -/
theorem trailing_colon_panics_witness :
    shortName "myFn:" = "" ∧
    (runModel sampleWorld "myFn:" false).1 =
      Res.panic "checkMainPackage called with an empty lambdaName" := by
  have h := trailing_colon_panics "myFn:" (by decide) (by decide)
  exact ⟨h.1, h.2 sampleWorld false⟩

/-- C1 counterexample: a zip-packaged `go1.x` descriptor with the single
architecture arm64 and an absent handler name. The claim predicts the
unsupported-architecture failure for every non-amd64 architecture under
`go1.x`, but the code checks the handler name first and fails with the
empty-handler error instead. -/
theorem resolve_go1x_arm64_nohandler_cex :
    resolve cexConfig = .error RunError.emptyHandlerName ∧
    resolve cexConfig ≠ .error (RunError.go1xUnsupportedArch Arch.arm64) := by
  constructor
  · rfl
  · intro h
    exact absurd (Except.error.inj h) (by decide)

theorem resolveRuntime_eq_table (c : FunctionConfiguration) (arch : Arch) :
    resolveRuntime c arch = resolveTable c.runtime arch c.handler := by
  unfold resolveRuntime resolveTable
  cases hrt : c.runtime with
  | go1x =>
    cases hh : c.handler with
    | none => rfl
    | some h =>
      by_cases he : h = ""
      · simp [he]
      · by_cases hx : arch = Arch.x8664
        · simp [he, hx]
        · simp [he, hx]
  | providedal2 => rfl
  | otherRuntime r => rfl

/-- C1 (amended): for every fetched configuration with zip package type
and exactly one architecture, resolution follows the decision table
`resolveTable` totally, with the code's precedence for `go1.x`: an absent
or empty handler name fails with the empty-handler error regardless of
architecture; with a non-empty handler, amd64 yields the handler name and
compiler arch amd64, and any other architecture fails with the
unsupported-architecture error; `provided.al2` yields the fixed name
`bootstrap` with compiler arch amd64 or arm64, failing on any other
architecture; any other runtime fails with the unsupported-runtime error. -/
theorem resolve_eq_resolveTable (c : FunctionConfiguration) (arch : Arch)
    (hp : c.packageType = PackageType.zip) (ha : c.architectures = [arch]) :
    resolve c = resolveTable c.runtime arch c.handler := by
  unfold resolve
  rw [if_neg (by simp [hp]), ha]
  exact resolveRuntime_eq_table c arch

/-- C1 witness: end-to-end scenario A, a `go1.x` amd64 descriptor with
handler `main`, resolved through the table. -/
theorem resolve_eq_resolveTable_witness :
    resolve { packageType := .zip, runtime := .go1x, architectures := [.x8664],
              handler := some "main", revisionId := none } =
      resolveTable Runtime.go1x Arch.x8664 (some "main") :=
  resolve_eq_resolveTable
    { packageType := .zip, runtime := .go1x, architectures := [.x8664],
      handler := some "main", revisionId := none } Arch.x8664 rfl rfl

/-- C7: for a zip-packaged descriptor whose architectures list has zero
elements or more than one element, resolution fails with the
expected-single-architecture error, regardless of runtime and handler. -/
theorem resolve_single_arch_required (c : FunctionConfiguration)
    (hp : c.packageType = PackageType.zip) (hl : c.architectures.length ≠ 1) :
    resolve c = .error (.expectedSingleArch c.architectures) := by
  unfold resolve
  rw [if_neg (by simp [hp])]
  rcases ha : c.architectures with _ | ⟨a, _ | ⟨b, rest⟩⟩
  · rfl
  · rw [ha] at hl
    simp at hl
  · rfl

/-- C7 witness: an empty architectures list is rejected. -/
theorem resolve_single_arch_required_witness :
    resolve { packageType := .zip, runtime := .go1x, architectures := [],
              handler := none, revisionId := none } =
      .error (RunError.expectedSingleArch []) :=
  resolve_single_arch_required
    { packageType := .zip, runtime := .go1x, architectures := [],
      handler := none, revisionId := none } rfl (by decide)

/-- C8: for every compiled binary (whatever its on-disk name, mode and
metadata), content and entry name, the archive the packager produces holds
exactly one entry, named exactly the given entry name, with permission
bits 0775, whose logical (decompressed) content is exactly the binary's
bytes. -/
theorem buildAndZip_roundtrip (fi : FileInfo) (contents : List UInt8)
    (entryName : String) :
    (buildAndZip fi contents entryName).entries.map
        (fun e => (e.header.name, e.header.mode, e.data)) =
      [(entryName, 0o775, contents)] := rfl

/-- C9 counterexample: the configuration fetch is invoked with the plain
interrupt-cancellable context (src/main.go line 57) — it carries no
explicit timeout, so the claim that both remote operations are invoked
with explicit timeouts fails on the read side. -/
theorem fetchCtx_no_timeout_cex : Ctx.explicitTimeout fetchCtx = none := rfl

/-- C9 (amended): only the code-update submission carries an explicit
timeout, of five minutes (src/main.go line 106); the configuration fetch
is passed the interrupt-cancellable signal context with no explicit
timeout at all. -/
theorem timeouts_actual :
    Ctx.explicitTimeout updateCtx = some (5 * 60) ∧
    Ctx.explicitTimeout fetchCtx = none ∧
    updateCtx = Ctx.withTimeout Ctx.signalCtx 300 := by
  refine ⟨rfl, rfl, rfl⟩

/-- C4: for every parseable directory holding a main package whose docs
lack a whole-word mention of the (non-empty) short name, strict analysis
fails with the error that names the missing mention and the `-f` bypass,
while relaxed analysis of the same directory succeeds. -/
theorem checkMainPackage_doc_missing (dir : GoDir) (name : String) (pkg : GoPackage)
    (hn : name ≠ "") (hp : dir.parseError = none)
    (hm : dir.packages.lookup "main" = some pkg)
    (hd : pkg.files.any (docMentions name) = false) :
    checkMainPackage dir name true = .error (.docsMissingName name) ∧
    (CheckError.docsMissingName name).message =
      "package docs does not mention name \"" ++ name ++
        "\" (run with -f to skip this check)" ∧
    checkMainPackage dir name false = .ok () := by
  refine ⟨?_, rfl, ?_⟩
  · simp [checkMainPackage, hn, hp, hm, hd]
  · simp [checkMainPackage, hn, hp, hm]

/-- C4 witness: the concrete directory whose main package docs never say
`fn`, analyzed strictly and in relaxed mode. -/
theorem checkMainPackage_doc_missing_witness :
    checkMainPackage sampleDirNoDoc "fn" true = .error (.docsMissingName "fn") ∧
    (CheckError.docsMissingName "fn").message =
      "package docs does not mention name \"" ++ "fn" ++
        "\" (run with -f to skip this check)" ∧
    checkMainPackage sampleDirNoDoc "fn" false = .ok () :=
  checkMainPackage_doc_missing sampleDirNoDoc "fn"
    { files := [{ doc := some "Command does things.\n", importPaths := [awsDependency] }] }
    (by decide) rfl rfl (by decide)

/-- C5: for every parseable directory with a main package and a non-empty
short name, strict analysis succeeds exactly when some file's leading
documentation mentions the short name as a whole word and some file
imports the AWS Lambda handler library path. -/
theorem checkMainPackage_strict_iff (dir : GoDir) (name : String) (pkg : GoPackage)
    (hn : name ≠ "") (hp : dir.parseError = none)
    (hm : dir.packages.lookup "main" = some pkg) :
    (checkMainPackage dir name true = .ok () ↔
      (∃ f ∈ pkg.files, docMentions name f = true) ∧
      (∃ f ∈ pkg.files, hasAwsImport f = true)) := by
  cases h1 : pkg.files.any (docMentions name) <;>
    cases h2 : pkg.files.any hasAwsImport <;>
      simp only [checkMainPackage, if_neg hn, hp, hm, h1, h2] <;>
        simp [← List.any_eq_true, h1, h2]

/-- C5 witness: the conforming sample directory, whose single file both
mentions `fn` in its doc comment and imports the Lambda library. -/
theorem checkMainPackage_strict_iff_witness :
    checkMainPackage sampleDir "fn" true = .ok () ↔
      (∃ f ∈ ({ files := [sampleFile] } : GoPackage).files, docMentions "fn" f = true) ∧
      (∃ f ∈ ({ files := [sampleFile] } : GoPackage).files, hasAwsImport f = true) :=
  checkMainPackage_strict_iff sampleDir "fn" { files := [sampleFile] }
    (by decide) rfl rfl

/-- C6: when the safety check passes and the fetch returns a descriptor
whose package type is not zip, the pipeline fails with the
unsupported-package-type error, and neither the build step (compilation
and packaging) nor the upload step is ever attempted. -/
theorem runModel_unsupported_packageType (w : World) (name : String)
    (relaxedChecks : Bool) (c : FunctionConfiguration)
    (hn : name ≠ "")
    (hchk : checkMainPackage w.dir (shortName name) (!relaxedChecks) = .ok ())
    (hf : w.fetch = .ok c) (hp : c.packageType ≠ PackageType.zip) :
    (runModel w name relaxedChecks).1 =
      .error (.unsupportedPackageType c.packageType) ∧
    Event.buildStep ∉ (runModel w name relaxedChecks).2 ∧
    Event.uploadStep ∉ (runModel w name relaxedChecks).2 := by
  have hres : resolve c = .error (.unsupportedPackageType c.packageType) := by
    unfold resolve
    rw [if_pos hp]
  have hrun : runModel w name relaxedChecks =
      (.error (.unsupportedPackageType c.packageType),
       [.normalize, .safetyCheck, .fetchConfig, .resolveStep]) := by
    simp only [runModel, runStep2, runStep3, if_neg hn, hchk, hf, hres]
  rw [hrun]
  refine ⟨rfl, ?_, ?_⟩
  · show Event.buildStep ∉ [Event.normalize, Event.safetyCheck, Event.fetchConfig,
      Event.resolveStep]
    decide
  · show Event.uploadStep ∉ [Event.normalize, Event.safetyCheck, Event.fetchConfig,
      Event.resolveStep]
    decide

/-- C6 witness: the image-packaged world fails at resolution with neither
a build nor an upload attempted. -/
theorem runModel_unsupported_packageType_witness :
    (runModel imageWorld "fn" false).1 =
      .error (.unsupportedPackageType PackageType.image) ∧
    Event.buildStep ∉ (runModel imageWorld "fn" false).2 ∧
    Event.uploadStep ∉ (runModel imageWorld "fn" false).2 :=
  runModel_unsupported_packageType imageWorld "fn" false imageConfig
    (by decide) (by decide) rfl (by decide)

/-- C3 counterexample: in the all-succeeding sample world the trace of a
complete run is normalize, safety check, fetch, resolve, build, upload:
the safety analyzer runs strictly before the configuration fetch, so the
claimed order — fetch first, analyzer only after it — is false on this
run. -/
theorem runModel_safety_before_fetch_cex :
    (runModel sampleWorld "fn" false).2 = pipelineOrder ∧
    eventIdx Event.safetyCheck (runModel sampleWorld "fn" false).2 <
      eventIdx Event.fetchConfig (runModel sampleWorld "fn" false).2 := by
  decide

theorem runStep5_tail (w : World) (c : FunctionConfiguration) (bt : BuildTarget)
    (bin : CompiledBinary) :
    (∃ rest, (runStep5 w c bt bin).2 ++ rest = pipelineOrder) ∧
    (runStep5 w c bt bin).2.head? = some Event.normalize ∧
    ((runStep5 w c bt bin).1 = Res.ok () →
      (runStep5 w c bt bin).2 = pipelineOrder) := by
  unfold runStep5
  cases hu : w.upload c.revisionId (buildAndZip bin.info bin.data bt.binaryName) with
  | error msg => exact ⟨⟨[], by simp⟩, rfl, fun _ => rfl⟩
  | ok v => exact ⟨⟨[], by simp⟩, rfl, fun _ => rfl⟩

theorem runStep4_tail (w : World) (c : FunctionConfiguration) (bt : BuildTarget) :
    (∃ rest, (runStep4 w c bt).2 ++ rest = pipelineOrder) ∧
    (runStep4 w c bt).2.head? = some Event.normalize ∧
    ((runStep4 w c bt).1 = Res.ok () → (runStep4 w c bt).2 = pipelineOrder) := by
  unfold runStep4
  cases hb : w.compile bt.lambdaArch with
  | error msg => exact ⟨⟨[.uploadStep], rfl⟩, rfl, fun h => nomatch h⟩
  | ok bin => exact runStep5_tail w c bt bin

theorem runStep3_tail (w : World) (c : FunctionConfiguration) :
    (∃ rest, (runStep3 w c).2 ++ rest = pipelineOrder) ∧
    (runStep3 w c).2.head? = some Event.normalize ∧
    ((runStep3 w c).1 = Res.ok () → (runStep3 w c).2 = pipelineOrder) := by
  unfold runStep3
  cases hr : resolve c with
  | error e => exact ⟨⟨[.buildStep, .uploadStep], rfl⟩, rfl, fun h => nomatch h⟩
  | ok bt => exact runStep4_tail w c bt

theorem runStep2_tail (w : World) :
    (∃ rest, (runStep2 w).2 ++ rest = pipelineOrder) ∧
    (runStep2 w).2.head? = some Event.normalize ∧
    ((runStep2 w).1 = Res.ok () → (runStep2 w).2 = pipelineOrder) := by
  unfold runStep2
  cases hf : w.fetch with
  | error msg =>
    exact ⟨⟨[.resolveStep, .buildStep, .uploadStep], rfl⟩, rfl, fun h => nomatch h⟩
  | ok c => exact runStep3_tail w c

/-- C3 (amended): for every world, non-empty identifier and flag value,
the driver attempts its steps in the fixed order normalize, safety check
against the short name, configuration fetch, resolve, build, upload: the
trace is always an initial segment of that order (so each failing step
short-circuits the pipeline there), it starts with the normalization, and
a successful run performs all six steps. -/
theorem runModel_step_order (w : World) (name : String) (relaxedChecks : Bool)
    (hn : name ≠ "") :
    (∃ rest, (runModel w name relaxedChecks).2 ++ rest = pipelineOrder) ∧
    (runModel w name relaxedChecks).2.head? = some Event.normalize ∧
    ((runModel w name relaxedChecks).1 = Res.ok () →
      (runModel w name relaxedChecks).2 = pipelineOrder) := by
  simp only [runModel, if_neg hn]
  cases hc : checkMainPackage w.dir (shortName name) (!relaxedChecks) with
  | panic msg =>
    exact ⟨⟨[.fetchConfig, .resolveStep, .buildStep, .uploadStep], rfl⟩, rfl,
           fun h => nomatch h⟩
  | error e =>
    exact ⟨⟨[.fetchConfig, .resolveStep, .buildStep, .uploadStep], rfl⟩, rfl,
           fun h => nomatch h⟩
  | ok u => exact runStep2_tail w

/-- C3 witness: the step-order guarantee instantiated at the
all-succeeding sample world. -/
theorem runModel_step_order_witness :
    (∃ rest, (runModel sampleWorld "fn" false).2 ++ rest = pipelineOrder) ∧
    (runModel sampleWorld "fn" false).2.head? = some Event.normalize ∧
    ((runModel sampleWorld "fn" false).1 = Res.ok () →
      (runModel sampleWorld "fn" false).2 = pipelineOrder) :=
  runModel_step_order sampleWorld "fn" false (by decide)

example : resolve sampleConfig = .ok ⟨"bootstrap", "arm64"⟩ := rfl
example : (runModel sampleWorld "fn" false).1 = Res.ok () := by decide
